import Mathlib

/-!
Verification development for the kubekey phased remote-execution engine.

The definitions below are shallow embeddings of the Go sources:
* `aggregateFromMachinesToKCP` — cluster-level aggregation of machine health
  conditions (package `cluster`, health-condition file).
* the `kkinstance` controller phase functions (`phaseFactory`,
  `reconcileBootstrap`, `reconcileRepository`, `reconcileBinaryService`,
  `reconcileContainerManager`, `reconcileProvisioning`,
  `reconcileDeletingBootstrap`).
* `GenerateHosts` (package `templates`).
* the control-plane deletion-candidate helpers
  (`FailureDomainWithMostMachines`, `MachineInFailureDomainWithMostMachines`).

Go `error` results are modelled as `Option String` (`none` = nil error,
`some e` = an error whose `Error()` is `e`).  Remote side effects are
modelled as an explicit trace of the remote actions a reconcile performed.
-/

/-! ## Conditions (sigs.k8s.io/cluster-api `Condition`) -/

/-- `corev1.ConditionStatus`: True / False / Unknown. -/
inductive CStatus
  | isTrue
  | isFalse
  | unknown
  deriving DecidableEq, Repr

/-- `clusterv1.ConditionSeverity`: Error / Warning / Info / "" (none). -/
inductive Severity
  | error
  | warning
  | info
  | none
  deriving DecidableEq, Repr

/-- A `clusterv1.Condition`, restricted to the fields the engine reads or
writes (`LastTransitionTime` is not modelled). -/
structure Condition where
  ctype : String
  status : CStatus
  severity : Severity
  reason : String
  message : String
  deriving DecidableEq, Repr

/-- `conditions.Get`: the first condition with the given type, if any. -/
def conditionsGet (conds : List Condition) (t : String) : Option Condition :=
  conds.find? (fun c => c.ctype == t)

/-- `conditions.Set` (via MarkTrue/MarkFalse): replace the condition with the
same type in place, or append when absent.  (cluster-api additionally re-sorts
the list; observably equivalent for `conditionsGet`.) -/
def conditionsSet (conds : List Condition) (c : Condition) : List Condition :=
  if conds.any (fun c0 => c0.ctype == c.ctype) then
    conds.map (fun c0 => if c0.ctype == c.ctype then c else c0)
  else
    conds ++ [c]

/-! ## Go string helpers used by the embedding

Lean's built-in `String.trim`/`String.splitOn`/`≤` do not reduce inside the
kernel, so the Go `strings`/`sort` helpers are modelled directly over the
character list of the string. -/

/-- Whitespace as trimmed by Go `strings.TrimSpace` (ASCII fragment). -/
def isSpaceChar (c : Char) : Bool :=
  c == ' ' || c == '\t' || c == '\n' || c == '\r'

/-- Model of Go `strings.TrimSpace`. -/
def trimSpace (s : String) : String :=
  ⟨((s.data.dropWhile isSpaceChar).reverse.dropWhile isSpaceChar).reverse⟩

/-- Helper for `splitLines`: split on newline, accumulating the current line
in reverse. -/
def splitLinesGo : List Char → List Char → List String
  | [], acc => [String.mk acc.reverse]
  | c :: rest, acc =>
    if c == '\n' then String.mk acc.reverse :: splitLinesGo rest []
    else splitLinesGo rest (c :: acc)

/-- Model of Go `strings.Split(s, "\n")` (in particular `"" ↦ [""]`). -/
def splitLines (s : String) : List String :=
  splitLinesGo s.data []

/-- Lexicographic comparison of character lists by code point. -/
def charListLe : List Char → List Char → Bool
  | [], _ => true
  | _ :: _, [] => false
  | a :: as, b :: bs =>
    if a.val < b.val then true
    else if b.val < a.val then false
    else charListLe as bs

/-- Lexicographic string order, as used by Go `sort.Strings`. -/
def strLe (a b : String) : Bool :=
  charListLe a.data b.data

/-- Insert into a lexicographically sorted list of strings. -/
def insertSorted (x : String) : List String → List String
  | [] => [x]
  | y :: ys => if strLe x y then x :: y :: ys else y :: insertSorted x ys

/-- Model of Go `sort.Strings` (insertion sort; `sets.String.List()` returns
the members in sorted order). -/
def sortStrings (l : List String) : List String :=
  l.foldr insertSorted []

/-- `sets.String.Insert`: add a member (sets are modelled as duplicate-free
lists; the sorted view is taken by `sortStrings` at `List()` time). -/
def strInsert (s : List String) (x : String) : List String :=
  if x ∈ s then s else s ++ [x]

/-! ## `aggregateFromMachinesToKCP` (package `cluster`) -/

/-- A machine as seen by the aggregation: its name and its conditions. -/
structure AggMachine where
  name : String
  conditions : List Condition
  deriving DecidableEq, Repr

/-- The five name sets built by the grouping loop of
`aggregateFromMachinesToKCP`. -/
structure AggSets where
  withErrors : List String
  withWarnings : List String
  withInfo : List String
  withTrue : List String
  withUnknown : List String
  deriving DecidableEq, Repr

def emptyAggSets : AggSets :=
  { withErrors := [], withWarnings := [], withInfo := [], withTrue := [],
    withUnknown := [] }

/-- The switch on one machine condition inside the grouping loop. -/
def aggClassifyCond (s : AggSets) (name : String) (mc : Condition) : AggSets :=
  match mc.status with
  | .isTrue => { s with withTrue := strInsert s.withTrue name }
  | .isFalse =>
    match mc.severity with
    | .info => { s with withInfo := strInsert s.withInfo name }
    | .warning => { s with withWarnings := strInsert s.withWarnings name }
    | .error => { s with withErrors := strInsert s.withErrors name }
    | .none => s
  | .unknown => { s with withUnknown := strInsert s.withUnknown name }

/-- The inner loop over `input.machineConditions` for one machine. -/
def aggMachineStep (condTypes : List String) (s : AggSets) (m : AggMachine) :
    AggSets :=
  condTypes.foldl
    (fun s' ct =>
      match conditionsGet m.conditions ct with
      | some mc => aggClassifyCond s' m.name mc
      | Option.none => s')
    s

/-- The grouping loop over `input.controlPlane.Machines`. -/
def aggSets (machines : List AggMachine) (condTypes : List String) : AggSets :=
  machines.foldl (aggMachineStep condTypes) emptyAggSets

/-- What `aggregateFromMachinesToKCP` writes to the KCP condition of type
`input.condition`, if anything. -/
inductive KCPOutcome
  | markedFalse (reason : String) (severity : Severity) (message : String)
  | markedTrue
  | markedUnknown (reason : String) (message : String)
  deriving DecidableEq, Repr

/-- The input struct `aggregateFromMachinesToKCPInput` (the `controlPlane`
field is restricted to the machine list, the only part the function reads;
`condition` itself is not needed to state the outcome). -/
structure AggInput where
  machines : List AggMachine
  machineConditions : List String
  kcpErrors : List String
  unhealthyReason : String
  unknownReason : String
  note : String

/-- Shallow embedding of `aggregateFromMachinesToKCP`.  The second
`withWarnings` test reproduces the source verbatim: the branch commented
"at least one machine with info" tests the *warnings* set again (and reports
severity Warning), so it can never fire. -/
def aggregateFromMachinesToKCP (input : AggInput) : Option KCPOutcome :=
  let s := aggSets input.machines input.machineConditions
  let kcpErrors :=
    if 0 < s.withErrors.length then
      input.kcpErrors ++
        ["Following machines are reporting " ++ input.note ++ " errors: " ++
          String.intercalate ", " (sortStrings s.withErrors)]
    else input.kcpErrors
  if 0 < kcpErrors.length then
    some (.markedFalse input.unhealthyReason .error
      (String.intercalate "; " kcpErrors))
  else if 0 < s.withWarnings.length then
    some (.markedFalse input.unhealthyReason .warning
      ("Following machines are reporting " ++ input.note ++ " warnings: " ++
        String.intercalate ", " (sortStrings s.withWarnings)))
  else if 0 < s.withWarnings.length then
    some (.markedFalse input.unhealthyReason .warning
      ("Following machines are reporting " ++ input.note ++ " info: " ++
        String.intercalate ", " (sortStrings s.withInfo)))
  else if 0 < s.withTrue.length then
    some .markedTrue
  else if 0 < s.withUnknown.length then
    some (.markedUnknown input.unknownReason
      ("Following machines are reporting unknown " ++ input.note ++
        " status: " ++ String.intercalate ", " (sortStrings s.withUnknown)))
  else
    Option.none

example :
    aggregateFromMachinesToKCP
      { machines := [⟨"m1", [⟨"AgentHealthy", .isTrue, .none, "", ""⟩]⟩],
        machineConditions := ["AgentHealthy"], kcpErrors := [],
        unhealthyReason := "u", unknownReason := "k", note := "n" } =
    some .markedTrue := by rfl

/-! ### Lemmas about the aggregation sets -/

lemma strInsert_ne_nil (s : List String) (x : String) : strInsert s x ≠ [] := by
  unfold strInsert
  split
  · exact List.ne_nil_of_mem (by assumption)
  · simp

lemma aggMachineStep_nil (s : AggSets) (m : AggMachine) :
    aggMachineStep [] s m = s := rfl

lemma aggMachineStep_cons (ct : String) (cts : List String) (s : AggSets)
    (m : AggMachine) :
    aggMachineStep (ct :: cts) s m =
      aggMachineStep cts
        (match conditionsGet m.conditions ct with
         | some mc => aggClassifyCond s m.name mc
         | Option.none => s) m := rfl

lemma aggClassifyCond_withErrors_mono (s : AggSets) (n : String) (mc : Condition)
    (h : s.withErrors ≠ []) : (aggClassifyCond s n mc).withErrors ≠ [] := by
  unfold aggClassifyCond
  cases mc.status <;> try simpa using h
  cases mc.severity <;> first
  | simpa using h
  | simpa using strInsert_ne_nil s.withErrors n

lemma aggMachineStep_withErrors_mono (m : AggMachine) :
    ∀ (cts : List String) (s : AggSets), s.withErrors ≠ [] →
      (aggMachineStep cts s m).withErrors ≠ [] := by
  intro cts
  induction cts with
  | nil => intro s h; simpa [aggMachineStep_nil] using h
  | cons ct rest ih =>
    intro s h
    rw [aggMachineStep_cons]
    apply ih
    cases hg : conditionsGet m.conditions ct with
    | none => simpa using h
    | some mc => exact aggClassifyCond_withErrors_mono s m.name mc h

lemma aggMachineStep_withErrors_of_mem (m : AggMachine) (ct : String)
    (c : Condition) (hg : conditionsGet m.conditions ct = some c)
    (hst : c.status = CStatus.isFalse) (hsev : c.severity = Severity.error) :
    ∀ (cts : List String) (s : AggSets), ct ∈ cts →
      (aggMachineStep cts s m).withErrors ≠ [] := by
  intro cts
  induction cts with
  | nil => intro s h; cases h
  | cons a rest ih =>
    intro s hmem
    rw [aggMachineStep_cons]
    rcases List.mem_cons.mp hmem with heq | hrest
    · subst heq
      apply aggMachineStep_withErrors_mono
      simp only [hg, aggClassifyCond, hst, hsev]
      simpa using strInsert_ne_nil s.withErrors m.name
    · exact ih _ hrest

lemma aggSets_withErrors_of_mem (machines : List AggMachine)
    (condTypes : List String) (m : AggMachine) (ct : String) (c : Condition)
    (hm : m ∈ machines) (hct : ct ∈ condTypes)
    (hg : conditionsGet m.conditions ct = some c)
    (hst : c.status = CStatus.isFalse) (hsev : c.severity = Severity.error) :
    (aggSets machines condTypes).withErrors ≠ [] := by
  unfold aggSets
  have mono : ∀ (ms : List AggMachine) (s : AggSets), s.withErrors ≠ [] →
      (List.foldl (aggMachineStep condTypes) s ms).withErrors ≠ [] := by
    intro ms
    induction ms with
    | nil => intro s h; simpa using h
    | cons a rest ih =>
      intro s h
      rw [List.foldl_cons]
      exact ih _ (aggMachineStep_withErrors_mono a condTypes s h)
  have main : ∀ (ms : List AggMachine) (s : AggSets), m ∈ ms →
      (List.foldl (aggMachineStep condTypes) s ms).withErrors ≠ [] := by
    intro ms
    induction ms with
    | nil => intro s h; cases h
    | cons a rest ih =>
      intro s hmem
      rw [List.foldl_cons]
      rcases List.mem_cons.mp hmem with heq | hrest
      · subst heq
        exact mono rest _ (aggMachineStep_withErrors_of_mem m ct c hg hst hsev
          condTypes s hct)
      · exact ih _ hrest
  exact main machines emptyAggSets hm

lemma aggMachineStep_all_true (m : AggMachine) :
    ∀ (cts : List String) (s : AggSets),
      (∀ ct ∈ cts, ∃ c, conditionsGet m.conditions ct = some c ∧
        c.status = CStatus.isTrue) →
      (aggMachineStep cts s m).withErrors = s.withErrors ∧
      (aggMachineStep cts s m).withWarnings = s.withWarnings ∧
      (aggMachineStep cts s m).withUnknown = s.withUnknown ∧
      ((s.withTrue ≠ [] ∨ cts ≠ []) → (aggMachineStep cts s m).withTrue ≠ []) := by
  intro cts
  induction cts with
  | nil =>
    intro s _
    refine ⟨rfl, rfl, rfl, ?_⟩
    rintro (hs | hne)
    · exact hs
    · exact absurd rfl hne
  | cons ct rest ih =>
    intro s h
    obtain ⟨c, hg, hst⟩ := h ct (List.mem_cons_self ct rest)
    have hrest := fun ct' h' => h ct' (List.mem_cons_of_mem _ h')
    rw [aggMachineStep_cons]
    simp only [hg, aggClassifyCond, hst]
    obtain ⟨h1, h2, h3, h4⟩ := ih _ hrest
    refine ⟨by simpa using h1, by simpa using h2, by simpa using h3, ?_⟩
    intro _
    apply h4
    left
    simpa using strInsert_ne_nil s.withTrue m.name

lemma aggMachineStep_all_unknown (m : AggMachine) :
    ∀ (cts : List String) (s : AggSets),
      (∀ ct ∈ cts, ∃ c, conditionsGet m.conditions ct = some c ∧
        c.status = CStatus.unknown) →
      (aggMachineStep cts s m).withErrors = s.withErrors ∧
      (aggMachineStep cts s m).withWarnings = s.withWarnings ∧
      (aggMachineStep cts s m).withTrue = s.withTrue ∧
      ((s.withUnknown ≠ [] ∨ cts ≠ []) →
        (aggMachineStep cts s m).withUnknown ≠ []) := by
  intro cts
  induction cts with
  | nil =>
    intro s _
    refine ⟨rfl, rfl, rfl, ?_⟩
    rintro (hs | hne)
    · exact hs
    · exact absurd rfl hne
  | cons ct rest ih =>
    intro s h
    obtain ⟨c, hg, hst⟩ := h ct (List.mem_cons_self ct rest)
    have hrest := fun ct' h' => h ct' (List.mem_cons_of_mem _ h')
    rw [aggMachineStep_cons]
    simp only [hg, aggClassifyCond, hst]
    obtain ⟨h1, h2, h3, h4⟩ := ih _ hrest
    refine ⟨by simpa using h1, by simpa using h2, by simpa using h3, ?_⟩
    intro _
    apply h4
    left
    simpa using strInsert_ne_nil s.withUnknown m.name

lemma aggSets_all_true (machines : List AggMachine) (condTypes : List String)
    (hm : machines ≠ []) (hc : condTypes ≠ [])
    (h : ∀ m ∈ machines, ∀ ct ∈ condTypes, ∃ c,
      conditionsGet m.conditions ct = some c ∧ c.status = CStatus.isTrue) :
    (aggSets machines condTypes).withErrors = [] ∧
    (aggSets machines condTypes).withWarnings = [] ∧
    (aggSets machines condTypes).withUnknown = [] ∧
    (aggSets machines condTypes).withTrue ≠ [] := by
  have aux : ∀ (ms : List AggMachine) (s : AggSets),
      (∀ m ∈ ms, ∀ ct ∈ condTypes, ∃ c,
        conditionsGet m.conditions ct = some c ∧ c.status = CStatus.isTrue) →
      (List.foldl (aggMachineStep condTypes) s ms).withErrors = s.withErrors ∧
      (List.foldl (aggMachineStep condTypes) s ms).withWarnings =
        s.withWarnings ∧
      (List.foldl (aggMachineStep condTypes) s ms).withUnknown =
        s.withUnknown ∧
      ((s.withTrue ≠ [] ∨ (ms ≠ [] ∧ condTypes ≠ [])) →
        (List.foldl (aggMachineStep condTypes) s ms).withTrue ≠ []) := by
    intro ms
    induction ms with
    | nil =>
      intro s _
      refine ⟨rfl, rfl, rfl, ?_⟩
      rintro (hs | ⟨hne, _⟩)
      · exact hs
      · exact absurd rfl hne
    | cons a rest ih =>
      intro s hall
      have ha := hall a (List.mem_cons_self a rest)
      have hrest := fun m' h' => hall m' (List.mem_cons_of_mem _ h')
      rw [List.foldl_cons]
      obtain ⟨m1, m2, m3, m4⟩ := aggMachineStep_all_true a condTypes s ha
      obtain ⟨r1, r2, r3, r4⟩ := ih (aggMachineStep condTypes s a) hrest
      refine ⟨by rw [r1, m1], by rw [r2, m2], by rw [r3, m3], ?_⟩
      rintro (hs | ⟨_, hcts⟩)
      · exact r4 (Or.inl (m4 (Or.inl hs)))
      · exact r4 (Or.inl (m4 (Or.inr hcts)))
  obtain ⟨a1, a2, a3, a4⟩ := aux machines emptyAggSets h
  exact ⟨by simpa [emptyAggSets] using a1, by simpa [emptyAggSets] using a2,
    by simpa [emptyAggSets] using a3, a4 (Or.inr ⟨hm, hc⟩)⟩

lemma aggSets_all_unknown (machines : List AggMachine) (condTypes : List String)
    (hm : machines ≠ []) (hc : condTypes ≠ [])
    (h : ∀ m ∈ machines, ∀ ct ∈ condTypes, ∃ c,
      conditionsGet m.conditions ct = some c ∧ c.status = CStatus.unknown) :
    (aggSets machines condTypes).withErrors = [] ∧
    (aggSets machines condTypes).withWarnings = [] ∧
    (aggSets machines condTypes).withTrue = [] ∧
    (aggSets machines condTypes).withUnknown ≠ [] := by
  have aux : ∀ (ms : List AggMachine) (s : AggSets),
      (∀ m ∈ ms, ∀ ct ∈ condTypes, ∃ c,
        conditionsGet m.conditions ct = some c ∧ c.status = CStatus.unknown) →
      (List.foldl (aggMachineStep condTypes) s ms).withErrors = s.withErrors ∧
      (List.foldl (aggMachineStep condTypes) s ms).withWarnings =
        s.withWarnings ∧
      (List.foldl (aggMachineStep condTypes) s ms).withTrue = s.withTrue ∧
      ((s.withUnknown ≠ [] ∨ (ms ≠ [] ∧ condTypes ≠ [])) →
        (List.foldl (aggMachineStep condTypes) s ms).withUnknown ≠ []) := by
    intro ms
    induction ms with
    | nil =>
      intro s _
      refine ⟨rfl, rfl, rfl, ?_⟩
      rintro (hs | ⟨hne, _⟩)
      · exact hs
      · exact absurd rfl hne
    | cons a rest ih =>
      intro s hall
      have ha := hall a (List.mem_cons_self a rest)
      have hrest := fun m' h' => hall m' (List.mem_cons_of_mem _ h')
      rw [List.foldl_cons]
      obtain ⟨m1, m2, m3, m4⟩ := aggMachineStep_all_unknown a condTypes s ha
      obtain ⟨r1, r2, r3, r4⟩ := ih (aggMachineStep condTypes s a) hrest
      refine ⟨by rw [r1, m1], by rw [r2, m2], by rw [r3, m3], ?_⟩
      rintro (hs | ⟨_, hcts⟩)
      · exact r4 (Or.inl (m4 (Or.inl hs)))
      · exact r4 (Or.inl (m4 (Or.inr hcts)))
  obtain ⟨a1, a2, a3, a4⟩ := aux machines emptyAggSets h
  exact ⟨by simpa [emptyAggSets] using a1, by simpa [emptyAggSets] using a2,
    by simpa [emptyAggSets] using a3, a4 (Or.inr ⟨hm, hc⟩)⟩

/-- C1 (code bug): the claimed dominance order errors > warnings > info >
true > unknown fails at the info level, because the branch of
`aggregateFromMachinesToKCP` documented "at least one machine with info"
re-tests the warnings set.  At the failing input — a single machine whose
only aggregated condition is False with severity Info and no cluster-level
errors — the claim requires a False cluster condition reporting the info
machine, but the source writes no cluster-level condition at all; with an
additional machine reporting True, the source even reports True. -/
theorem C1_info_branch_suppressed :
    aggregateFromMachinesToKCP
      { machines := [⟨"m1", [⟨"AgentHealthy", .isFalse, .info, "r", "msg"⟩]⟩],
        machineConditions := ["AgentHealthy"], kcpErrors := [],
        unhealthyReason := "ComponentsUnhealthy",
        unknownReason := "ComponentsUnknown", note := "control plane" } =
      Option.none ∧
    aggregateFromMachinesToKCP
      { machines := [⟨"m1", [⟨"AgentHealthy", .isFalse, .info, "r", "msg"⟩]⟩,
                     ⟨"m2", [⟨"AgentHealthy", .isTrue, .none, "", ""⟩]⟩],
        machineConditions := ["AgentHealthy"], kcpErrors := [],
        unhealthyReason := "ComponentsUnhealthy",
        unknownReason := "ComponentsUnknown", note := "control plane" } =
      some KCPOutcome.markedTrue := by
  exact ⟨rfl, rfl⟩

/-- C6: aggregating machines whose conditions are all True yields a
cluster-level True condition; any machine set containing at least one
False/Error condition yields a cluster-level False condition with severity
Error; aggregating machines whose conditions are all Unknown yields a
cluster-level Unknown condition. -/
theorem C6_aggregation_round_trip (input : AggInput)
    (hm : input.machines ≠ []) (hc : input.machineConditions ≠ [])
    (hk : input.kcpErrors = []) :
    ((∀ m ∈ input.machines, ∀ ct ∈ input.machineConditions, ∃ c,
        conditionsGet m.conditions ct = some c ∧ c.status = CStatus.isTrue) →
      aggregateFromMachinesToKCP input = some KCPOutcome.markedTrue) ∧
    ((∃ m ∈ input.machines, ∃ ct ∈ input.machineConditions, ∃ c,
        conditionsGet m.conditions ct = some c ∧ c.status = CStatus.isFalse ∧
        c.severity = Severity.error) →
      ∃ msg, aggregateFromMachinesToKCP input =
        some (KCPOutcome.markedFalse input.unhealthyReason Severity.error
          msg)) ∧
    ((∀ m ∈ input.machines, ∀ ct ∈ input.machineConditions, ∃ c,
        conditionsGet m.conditions ct = some c ∧ c.status = CStatus.unknown) →
      ∃ msg, aggregateFromMachinesToKCP input =
        some (KCPOutcome.markedUnknown input.unknownReason msg)) := by
  refine ⟨?_, ?_, ?_⟩
  · intro h
    obtain ⟨h1, h2, h3, h4⟩ :=
      aggSets_all_true input.machines input.machineConditions hm hc h
    simp only [aggregateFromMachinesToKCP, h1, h2, hk]
    simp [List.length_pos, h4]
  · rintro ⟨m, hmem, ct, hct, c, hg, hst, hsev⟩
    have herr := aggSets_withErrors_of_mem input.machines
      input.machineConditions m ct c hmem hct hg hst hsev
    have hlen := List.length_pos.mpr herr
    simp only [aggregateFromMachinesToKCP]
    rw [if_pos hlen]
    simp
  · intro h
    obtain ⟨h1, h2, h3, h4⟩ :=
      aggSets_all_unknown input.machines input.machineConditions hm hc h
    simp only [aggregateFromMachinesToKCP, h1, h2, h3, hk]
    simp [List.length_pos, h4]

/-- Witness for `C6_aggregation_round_trip` at a concrete input. -/
theorem C6_aggregation_round_trip_witness :
    ([⟨"m1", [⟨"AgentHealthy", CStatus.isTrue, Severity.none, "", ""⟩]⟩] ≠
        ([] : List AggMachine) ∧
      ["AgentHealthy"] ≠ ([] : List String) ∧
      ([] : List String) = []) ∧
    aggregateFromMachinesToKCP
      { machines := [⟨"m1", [⟨"AgentHealthy", .isTrue, .none, "", ""⟩]⟩],
        machineConditions := ["AgentHealthy"], kcpErrors := [],
        unhealthyReason := "u", unknownReason := "k", note := "n" } =
      some KCPOutcome.markedTrue := by
  refine ⟨⟨by decide, by decide, rfl⟩, ?_⟩
  have h := C6_aggregation_round_trip
    { machines := [⟨"m1", [⟨"AgentHealthy", .isTrue, .none, "", ""⟩]⟩],
      machineConditions := ["AgentHealthy"], kcpErrors := [],
      unhealthyReason := "u", unknownReason := "k", note := "n" }
    (by decide) (by decide) rfl
  refine h.1 ?_
  intro m hm ct hct
  simp only [List.mem_singleton] at hm hct
  subst hm
  subst hct
  exact ⟨_, rfl, rfl⟩

/-! ## KKInstance conditions and states (api/v1beta1)

The `infrav1` API package is not part of the extracted sources; the condition
types, reason codes, distributions and states below are modelled from the
spec (section 6: condition types `Bootstrapped`, `RepositoryReady`,
`BinariesReady`, `CRIReady`, `Provisioned`, `DeletingBootstrap`) and from the
identifiers the controller uses. -/

def KKInstanceBootstrappedCondition : String := "Bootstrapped"
def KKInstanceRepositoryReadyCondition : String := "RepositoryReady"
def KKInstanceBinariesReadyCondition : String := "BinariesReady"
def KKInstanceCRIReadyCondition : String := "CRIReady"
def KKInstanceProvisionedCondition : String := "Provisioned"
def KKInstanceDeletingBootstrapCondition : String := "DeletingBootstrap"

def KKInstanceInitOSFailedReason : String := "InitOSFailed"
def KKInstanceRepositoryFailedReason : String := "RepositoryFailed"
def KKInstanceGetBinaryFailedReason : String := "GetBinaryFailed"
def KKInstanceInstallCRIFailedReason : String := "InstallCRIFailed"
def KKInstanceRunCloudConfigFailedReason : String := "RunCloudConfigFailed"
def KKInstanceClearEnvironmentFailedReason : String := "ClearEnvironmentFailed"

/-- Modelled from the spec: the two declared distributions (`infrav1.KUBERNETES`
and `infrav1.K3S`; the API package is not under the extracted sources). -/
def KUBERNETES : String := "kubernetes"

/-- Modelled from the spec: the K3s-class distribution constant. -/
def K3S : String := "k3s"

/-- `infrav1.InstanceState` (spec section 4.5). -/
inductive InstanceState
  | pending
  | bootstrapping
  | running
  | cleaning
  | succeeded
  | failed
  deriving DecidableEq, Repr

/-- The declarative per-host object, restricted to the status fields the
phase functions write: the state and the condition list. -/
structure KKInstance where
  state : Option InstanceState
  conditions : List Condition
  deriving DecidableEq, Repr

/-- `instanceScope.SetState`. -/
def setState (inst : KKInstance) (s : InstanceState) : KKInstance :=
  { inst with state := some s }

/-- `conditions.MarkTrue`. -/
def markTrue (inst : KKInstance) (t : String) : KKInstance :=
  { inst with conditions :=
      conditionsSet inst.conditions ⟨t, .isTrue, .none, "", ""⟩ }

/-- `conditions.MarkFalse`. -/
def markFalse (inst : KKInstance) (t reason : String) (sev : Severity)
    (msg : String) : KKInstance :=
  { inst with conditions :=
      conditionsSet inst.conditions ⟨t, .isFalse, sev, reason, msg⟩ }

/-- `conditions.IsTrue`. -/
def conditionsIsTrue (inst : KKInstance) (t : String) : Bool :=
  match conditionsGet inst.conditions t with
  | some c => c.status == CStatus.isTrue
  | Option.none => false

/-- The deferred condition update shared by every phase function: on a nil
error mark the phase condition True, otherwise mark it False with the
phase's reason, severity and the error text. -/
def applyConditionDefer (inst : KKInstance) (t reason : String)
    (sev : Severity) (err : Option String) : KKInstance :=
  match err with
  | some e => markFalse inst t reason sev e
  | Option.none => markTrue inst t

/-! ## The kkinstance controller phase functions -/

/-- The remote actions a phase can perform, used to trace executions. -/
inductive RemoteAction
  | addUsers
  | setHostname
  | createDirectory
  | resetTmpDirectory
  | execInitScript
  | check
  | get
  | mountISO
  | umountISO
  | updateAndInstall
  | download
  | isExist
  | criGet
  | criInstall
  | getBootstrapData
  | parseCommands
  | sudoCmd (command : String)
  | kubeadmReset
  | resetNetwork
  | removeFiles
  | daemonReload
  | uninstallK3s
  deriving DecidableEq, Repr

/-- The bootstrap service of `reconcileBootstrap` and
`reconcileDeletingBootstrap`: each remote call either succeeds (`none`) or
fails with an error string. -/
structure BootstrapService where
  addUsers : Option String
  setHostname : Option String
  createDirectory : Option String
  resetTmpDirectory : Option String
  execInitScript : Option String
  kubeadmReset : Option String
  resetNetwork : Option String
  removeFiles : Option String
  daemonReload : Option String
  uninstallK3s : Option String

/-- The repository service of `reconcileRepository` (the `UmountISO` result
is discarded by the source, hence no field for it). -/
structure RepositoryService where
  check : Option String
  get : Option String
  mountISO : Option String
  updateAndInstall : Option String

/-- The binary service of `reconcileBinaryService`. -/
structure BinaryService where
  download : Option String

/-- The container-manager service of `reconcileContainerManager`. -/
structure ContainerManagerService where
  isExist : Bool
  get : Option String
  install : Option String

/-- The provisioning dependencies of `reconcileProvisioning`: the bootstrap
data fetch, the parse of the data into commands, and the per-command
`SudoCmd` outcome. -/
structure ProvisioningService where
  getRawBootstrapData : Option String
  parseCommands : Except String (List String)
  sudoCmd : String → Option String

/-- A phase execution result: the updated instance object, the trace of
remote actions performed, and the returned error. -/
structure PhaseResult where
  inst : KKInstance
  trace : List RemoteAction
  err : Option String
  deriving Repr

/-- Body of `reconcileBootstrap` (everything after the deferred condition
update): early return when the condition is already True, otherwise set
state Bootstrapping and run the five remote calls, short-circuiting on the
first error. -/
def reconcileBootstrapBody (svc : BootstrapService) (inst : KKInstance) :
    KKInstance × List RemoteAction × Option String :=
  if conditionsIsTrue inst KKInstanceBootstrappedCondition then (inst, [], Option.none)
  else
    let inst := setState inst .bootstrapping
    match svc.addUsers with
    | some e => (inst, [.addUsers], some e)
    | Option.none =>
    match svc.setHostname with
    | some e => (inst, [.addUsers, .setHostname], some e)
    | Option.none =>
    match svc.createDirectory with
    | some e => (inst, [.addUsers, .setHostname, .createDirectory], some e)
    | Option.none =>
    match svc.resetTmpDirectory with
    | some e =>
      (inst, [.addUsers, .setHostname, .createDirectory, .resetTmpDirectory],
        some e)
    | Option.none =>
    match svc.execInitScript with
    | some e =>
      (inst, [.addUsers, .setHostname, .createDirectory, .resetTmpDirectory,
        .execInitScript], some e)
    | Option.none =>
      (inst, [.addUsers, .setHostname, .createDirectory, .resetTmpDirectory,
        .execInitScript], Option.none)

/-- `reconcileBootstrap`: body plus the deferred condition update
(False/Warning/`InitOSFailed` on error, True on success). -/
def reconcileBootstrap (svc : BootstrapService) (inst : KKInstance) :
    PhaseResult :=
  let r := reconcileBootstrapBody svc inst
  ⟨applyConditionDefer r.1 KKInstanceBootstrappedCondition
      KKInstanceInitOSFailedReason .warning r.2.2,
    r.2.1, r.2.2⟩

/-- Body of `reconcileRepository`.  The deferred `UmountISO` is modelled by
appending `umountISO` to the trace on every exit path reached after the
`MountISO` call (the Go `defer` registered right after it); its result is
discarded by the source. -/
def reconcileRepositoryBody (svc : RepositoryService) (inst : KKInstance) :
    KKInstance × List RemoteAction × Option String :=
  if conditionsIsTrue inst KKInstanceRepositoryReadyCondition then
    (inst, [], Option.none)
  else
    match svc.check with
    | some e => (inst, [.check], some e)
    | Option.none =>
    match svc.get with
    | some e => (inst, [.check, .get], some e)
    | Option.none =>
    match svc.mountISO with
    | some e => (inst, [.check, .get, .mountISO, .umountISO], some e)
    | Option.none =>
    match svc.updateAndInstall with
    | some e =>
      (inst, [.check, .get, .mountISO, .updateAndInstall, .umountISO], some e)
    | Option.none =>
      (inst, [.check, .get, .mountISO, .updateAndInstall, .umountISO],
        Option.none)

/-- `reconcileRepository`: body plus the deferred condition update
(False/Warning/`RepositoryFailed` on error, True on success). -/
def reconcileRepository (svc : RepositoryService) (inst : KKInstance) :
    PhaseResult :=
  let r := reconcileRepositoryBody svc inst
  ⟨applyConditionDefer r.1 KKInstanceRepositoryReadyCondition
      KKInstanceRepositoryFailedReason .warning r.2.2,
    r.2.1, r.2.2⟩

/-- Body of `reconcileBinaryService`. -/
def reconcileBinaryServiceBody (svc : BinaryService) (inst : KKInstance) :
    KKInstance × List RemoteAction × Option String :=
  if conditionsIsTrue inst KKInstanceBinariesReadyCondition then
    (inst, [], Option.none)
  else
    match svc.download with
    | some e => (inst, [.download], some e)
    | Option.none => (inst, [.download], Option.none)

/-- `reconcileBinaryService`: body plus the deferred condition update
(False/Error/`GetBinaryFailed` on error, True on success). -/
def reconcileBinaryService (svc : BinaryService) (inst : KKInstance) :
    PhaseResult :=
  let r := reconcileBinaryServiceBody svc inst
  ⟨applyConditionDefer r.1 KKInstanceBinariesReadyCondition
      KKInstanceGetBinaryFailedReason .error r.2.2,
    r.2.1, r.2.2⟩

/-- Body of `reconcileContainerManager`: early return when the condition is
True; skip installation when a container manager already exists. -/
def reconcileContainerManagerBody (svc : ContainerManagerService)
    (inst : KKInstance) : KKInstance × List RemoteAction × Option String :=
  if conditionsIsTrue inst KKInstanceCRIReadyCondition then
    (inst, [], Option.none)
  else if svc.isExist then (inst, [.isExist], Option.none)
  else
    match svc.get with
    | some e => (inst, [.isExist, .criGet], some e)
    | Option.none =>
    match svc.install with
    | some e => (inst, [.isExist, .criGet, .criInstall], some e)
    | Option.none => (inst, [.isExist, .criGet, .criInstall], Option.none)

/-- `reconcileContainerManager`: body plus the deferred condition update
(False/Error/`InstallCRIFailed` on error, True on success). -/
def reconcileContainerManager (svc : ContainerManagerService)
    (inst : KKInstance) : PhaseResult :=
  let r := reconcileContainerManagerBody svc inst
  ⟨applyConditionDefer r.1 KKInstanceCRIReadyCondition
      KKInstanceInstallCRIFailedReason .error r.2.2,
    r.2.1, r.2.2⟩

/-- The command loop of `reconcileProvisioning`: run each provisioning
command through `SudoCmd` in order, wrapping the first failure with
"failed to run cloud config". -/
def runProvisioningCommands (sudoRun : String → Option String) :
    List String → List RemoteAction × Option String
  | [] => ([], Option.none)
  | c :: rest =>
    match sudoRun c with
    | some e => ([.sudoCmd c], some ("failed to run cloud config: " ++ e))
    | Option.none =>
      let r := runProvisioningCommands sudoRun rest
      (.sudoCmd c :: r.1, r.2)

/-- Body of `reconcileProvisioning`: fetch the bootstrap payload, parse it
into commands (wrapping a parse failure with "failed to join a control plane
node with kubeadm"), then run the commands in order. -/
def reconcileProvisioningBody (svc : ProvisioningService) (inst : KKInstance) :
    KKInstance × List RemoteAction × Option String :=
  if conditionsIsTrue inst KKInstanceProvisionedCondition then
    (inst, [], Option.none)
  else
    match svc.getRawBootstrapData with
    | some e => (inst, [.getBootstrapData], some e)
    | Option.none =>
    match svc.parseCommands with
    | .error e =>
      (inst, [.getBootstrapData, .parseCommands],
        some ("failed to join a control plane node with kubeadm: " ++ e))
    | .ok commands =>
      let r := runProvisioningCommands svc.sudoCmd commands
      (inst, .getBootstrapData :: .parseCommands :: r.1, r.2)

/-- `reconcileProvisioning`: body plus the deferred condition update
(False/Error/`RunCloudConfigFailed` on error, True on success). -/
def reconcileProvisioning (svc : ProvisioningService) (inst : KKInstance) :
    PhaseResult :=
  let r := reconcileProvisioningBody svc inst
  ⟨applyConditionDefer r.1 KKInstanceProvisionedCondition
      KKInstanceRunCloudConfigFailedReason .error r.2.2,
    r.2.1, r.2.2⟩

/-- Body of `reconcileDeletingBootstrap`: set state Cleaning, then run the
five cleanup calls in order, short-circuiting on the first error.  (There is
no early-return condition check in this phase.) -/
def reconcileDeletingBootstrapBody (svc : BootstrapService)
    (inst : KKInstance) : KKInstance × List RemoteAction × Option String :=
  let inst := setState inst .cleaning
  match svc.kubeadmReset with
  | some e => (inst, [.kubeadmReset], some e)
  | Option.none =>
  match svc.resetNetwork with
  | some e => (inst, [.kubeadmReset, .resetNetwork], some e)
  | Option.none =>
  match svc.removeFiles with
  | some e => (inst, [.kubeadmReset, .resetNetwork, .removeFiles], some e)
  | Option.none =>
  match svc.daemonReload with
  | some e =>
    (inst, [.kubeadmReset, .resetNetwork, .removeFiles, .daemonReload], some e)
  | Option.none =>
  match svc.uninstallK3s with
  | some e =>
    (inst, [.kubeadmReset, .resetNetwork, .removeFiles, .daemonReload,
      .uninstallK3s], some e)
  | Option.none =>
    (inst, [.kubeadmReset, .resetNetwork, .removeFiles, .daemonReload,
      .uninstallK3s], Option.none)

/-- `reconcileDeletingBootstrap`: body plus the deferred condition update
(False/Warning/`ClearEnvironmentFailed` on error, True on success). -/
def reconcileDeletingBootstrap (svc : BootstrapService) (inst : KKInstance) :
    PhaseResult :=
  let r := reconcileDeletingBootstrapBody svc inst
  ⟨applyConditionDefer r.1 KKInstanceDeletingBootstrapCondition
      KKInstanceClearEnvironmentFailedReason .warning r.2.2,
    r.2.1, r.2.2⟩

/-! ## `phaseFactory` and the reconcile phase sequence -/

/-- The five install phases. -/
inductive Phase
  | bootstrap
  | repository
  | binaryService
  | containerManager
  | provisioning
  deriving DecidableEq, Repr

/-- Shallow embedding of `phaseFactory`: the switch on
`kkInstanceScope.Distribution()` (a distribution matching neither declared
constant falls through the switch with no phases appended). -/
def phaseFactory (distribution : String) : List Phase :=
  if distribution = KUBERNETES then
    [.bootstrap, .repository, .binaryService, .containerManager,
      .provisioning]
  else if distribution = K3S then
    [.bootstrap, .repository, .binaryService, .provisioning]
  else
    []

/-- The condition type owned by each phase. -/
def phaseCondition : Phase → String
  | .bootstrap => KKInstanceBootstrappedCondition
  | .repository => KKInstanceRepositoryReadyCondition
  | .binaryService => KKInstanceBinariesReadyCondition
  | .containerManager => KKInstanceCRIReadyCondition
  | .provisioning => KKInstanceProvisionedCondition

/-- The per-phase services a reconcile has access to. -/
structure Services where
  bootstrap : BootstrapService
  repository : RepositoryService
  binary : BinaryService
  cri : ContainerManagerService
  provisioning : ProvisioningService

/-- Dispatch one phase to its reconcile function. -/
def runPhase (p : Phase) (svcs : Services) (inst : KKInstance) : PhaseResult :=
  match p with
  | .bootstrap => reconcileBootstrap svcs.bootstrap inst
  | .repository => reconcileRepository svcs.repository inst
  | .binaryService => reconcileBinaryService svcs.binary inst
  | .containerManager => reconcileContainerManager svcs.cri inst
  | .provisioning => reconcileProvisioning svcs.provisioning inst

/-- Modelled from the spec: the reconcile loop of the controller (not under
the extracted sources) executes the phases returned by `phaseFactory` in
order and stops at the first phase error; later phases do not run in that
cycle.  Returns the final instance, the per-phase traces, and the error. -/
def runPhases (svcs : Services) :
    List Phase → KKInstance →
      KKInstance × List (Phase × List RemoteAction) × Option String
  | [], inst => (inst, [], Option.none)
  | p :: rest, inst =>
    let r := runPhase p svcs inst
    match r.err with
    | some e => (r.inst, [(p, r.trace)], some e)
    | Option.none =>
      let rest' := runPhases svcs rest r.inst
      (rest'.1, (p, r.trace) :: rest'.2.1, rest'.2.2)

/-! ### Lemmas about conditions and the phase functions -/

lemma find_map_replace (c : Condition) (t : String) (h : t ≠ c.ctype) :
    ∀ rest : List Condition,
      (rest.map (fun x => if x.ctype == c.ctype then c else x)).find?
          (fun x => x.ctype == t) =
        rest.find? (fun x => x.ctype == t) := by
  have hct : (c.ctype == t) = false := by
    simp
    exact fun hh => h hh.symm
  intro rest
  induction rest with
  | nil => rfl
  | cons x xs ih =>
    by_cases hx : x.ctype = c.ctype
    · simp only [List.map_cons]
      rw [if_pos (show (x.ctype == c.ctype) = true by simp [hx])]
      rw [List.find?_cons, List.find?_cons, hct,
        show (x.ctype == t) = false by rw [hx]; exact hct]
      exact ih
    · by_cases hxt : x.ctype = t
      · simp only [List.map_cons]
        rw [if_neg (show ¬(x.ctype == c.ctype) = true by simp [hx])]
        rw [List.find?_cons, List.find?_cons,
          show (x.ctype == t) = true by simp [hxt]]
      · simp only [List.map_cons]
        rw [if_neg (show ¬(x.ctype == c.ctype) = true by simp [hx])]
        rw [List.find?_cons, List.find?_cons,
          show (x.ctype == t) = false by simp [hxt]]
        exact ih

lemma find_map_replace_self (c : Condition) :
    ∀ rest : List Condition,
      rest.any (fun x => x.ctype == c.ctype) = true →
      (rest.map (fun x => if x.ctype == c.ctype then c else x)).find?
          (fun x => x.ctype == c.ctype) = some c := by
  intro rest
  induction rest with
  | nil => intro hany; cases hany
  | cons x xs ih =>
    intro hany
    by_cases hx : x.ctype = c.ctype
    · simp only [List.map_cons]
      rw [if_pos (show (x.ctype == c.ctype) = true by simp [hx])]
      rw [List.find?_cons, show (c.ctype == c.ctype) = true by simp]
    · have hxs : xs.any (fun x => x.ctype == c.ctype) = true := by
        simpa [List.any_cons, hx] using hany
      simp only [List.map_cons]
      rw [if_neg (show ¬(x.ctype == c.ctype) = true by simp [hx])]
      rw [List.find?_cons, show (x.ctype == c.ctype) = false by simp [hx]]
      exact ih hxs

lemma conditionsGet_set_self (conds : List Condition) (c : Condition) :
    conditionsGet (conditionsSet conds c) c.ctype = some c := by
  unfold conditionsSet conditionsGet
  by_cases hany : conds.any (fun c0 => c0.ctype == c.ctype) = true
  · rw [if_pos hany]
    exact find_map_replace_self c conds hany
  · rw [if_neg hany]
    rw [List.find?_append]
    have hnone : conds.find? (fun x => x.ctype == c.ctype) = Option.none := by
      rw [List.find?_eq_none]
      intro x hx hpx
      exact hany (List.any_eq_true.mpr ⟨x, hx, hpx⟩)
    rw [hnone]
    rw [List.find?_cons, show (c.ctype == c.ctype) = true by simp]
    rfl

lemma conditionsGet_set_ne (conds : List Condition) (c : Condition)
    (t : String) (h : t ≠ c.ctype) :
    conditionsGet (conditionsSet conds c) t = conditionsGet conds t := by
  unfold conditionsSet conditionsGet
  by_cases hany : conds.any (fun c0 => c0.ctype == c.ctype) = true
  · rw [if_pos hany]
    exact find_map_replace c t h conds
  · rw [if_neg hany]
    rw [List.find?_append]
    have h1 : ([c].find? (fun x => x.ctype == t)) = Option.none := by
      rw [List.find?_cons,
        show (c.ctype == t) = false by simp; exact fun hh => h hh.symm]
      rfl
    rw [h1]
    exact Option.or_none

lemma conditionsGet_set_self' (conds : List Condition) (t : String)
    (st : CStatus) (sev : Severity) (r m : String) :
    conditionsGet (conditionsSet conds ⟨t, st, sev, r, m⟩) t =
      some ⟨t, st, sev, r, m⟩ :=
  conditionsGet_set_self conds ⟨t, st, sev, r, m⟩

lemma applyConditionDefer_get_self (inst : KKInstance) (t reason : String)
    (sev : Severity) (err : Option String) :
    conditionsGet (applyConditionDefer inst t reason sev err).conditions t =
      some (match err with
        | some e => ⟨t, .isFalse, sev, reason, e⟩
        | Option.none => ⟨t, .isTrue, .none, "", ""⟩) := by
  cases err with
  | none =>
    simp only [applyConditionDefer, markTrue]
    exact conditionsGet_set_self' inst.conditions t _ _ _ _
  | some e =>
    simp only [applyConditionDefer, markFalse]
    exact conditionsGet_set_self' inst.conditions t _ _ _ _

lemma applyConditionDefer_get_ne (inst : KKInstance) (t reason : String)
    (sev : Severity) (err : Option String) (t' : String) (h : t' ≠ t) :
    conditionsGet (applyConditionDefer inst t reason sev err).conditions t' =
      conditionsGet inst.conditions t' := by
  cases err with
  | none =>
    simp only [applyConditionDefer, markTrue]
    exact conditionsGet_set_ne inst.conditions _ t' h
  | some e =>
    simp only [applyConditionDefer, markFalse]
    exact conditionsGet_set_ne inst.conditions _ t' h

lemma applyConditionDefer_state (inst : KKInstance) (t reason : String)
    (sev : Severity) (err : Option String) :
    (applyConditionDefer inst t reason sev err).state = inst.state := by
  cases err <;> rfl

lemma conditionsIsTrue_markTrue (inst : KKInstance) (t : String) :
    conditionsIsTrue (markTrue inst t) t = true := by
  simp only [conditionsIsTrue, markTrue]
  rw [conditionsGet_set_self' inst.conditions t _ _ _ _]
  rfl

lemma reconcileBootstrapBody_conditions (svc : BootstrapService)
    (inst : KKInstance) :
    (reconcileBootstrapBody svc inst).1.conditions = inst.conditions := by
  unfold reconcileBootstrapBody
  split
  · rfl
  · cases svc.addUsers <;> cases svc.setHostname <;>
      cases svc.createDirectory <;> cases svc.resetTmpDirectory <;>
      cases svc.execInitScript <;> rfl

lemma reconcileRepositoryBody_conditions (svc : RepositoryService)
    (inst : KKInstance) :
    (reconcileRepositoryBody svc inst).1.conditions = inst.conditions := by
  unfold reconcileRepositoryBody
  split
  · rfl
  · cases svc.check <;> cases svc.get <;> cases svc.mountISO <;>
      cases svc.updateAndInstall <;> rfl

lemma reconcileBinaryServiceBody_conditions (svc : BinaryService)
    (inst : KKInstance) :
    (reconcileBinaryServiceBody svc inst).1.conditions = inst.conditions := by
  unfold reconcileBinaryServiceBody
  split
  · rfl
  · cases svc.download <;> rfl

lemma reconcileContainerManagerBody_conditions (svc : ContainerManagerService)
    (inst : KKInstance) :
    (reconcileContainerManagerBody svc inst).1.conditions =
      inst.conditions := by
  unfold reconcileContainerManagerBody
  split
  · rfl
  · split
    · rfl
    · cases svc.get <;> cases svc.install <;> rfl

lemma reconcileProvisioningBody_conditions (svc : ProvisioningService)
    (inst : KKInstance) :
    (reconcileProvisioningBody svc inst).1.conditions = inst.conditions := by
  unfold reconcileProvisioningBody
  split
  · rfl
  · cases svc.getRawBootstrapData <;> try rfl
    cases svc.parseCommands <;> rfl

lemma reconcileDeletingBootstrapBody_conditions (svc : BootstrapService)
    (inst : KKInstance) :
    (reconcileDeletingBootstrapBody svc inst).1.conditions =
      inst.conditions := by
  unfold reconcileDeletingBootstrapBody
  cases svc.kubeadmReset <;> cases svc.resetNetwork <;>
    cases svc.removeFiles <;> cases svc.daemonReload <;>
    cases svc.uninstallK3s <;> rfl

lemma runPhase_noop (p : Phase) (svcs : Services) (inst : KKInstance)
    (h : conditionsIsTrue inst (phaseCondition p) = true) :
    runPhase p svcs inst =
      ⟨markTrue inst (phaseCondition p), [], Option.none⟩ := by
  cases p <;>
    simp only [runPhase, phaseCondition] at h ⊢ <;>
    simp [reconcileBootstrap, reconcileBootstrapBody,
      reconcileRepository, reconcileRepositoryBody,
      reconcileBinaryService, reconcileBinaryServiceBody,
      reconcileContainerManager, reconcileContainerManagerBody,
      reconcileProvisioning, reconcileProvisioningBody,
      applyConditionDefer, h]

lemma runPhase_get_ne (p : Phase) (svcs : Services) (inst : KKInstance)
    (t : String) (h : t ≠ phaseCondition p) :
    conditionsGet (runPhase p svcs inst).inst.conditions t =
      conditionsGet inst.conditions t := by
  cases p with
  | bootstrap =>
    simp only [runPhase, reconcileBootstrap]
    rw [applyConditionDefer_get_ne _ _ _ _ _ _ (by simpa [phaseCondition] using h)]
    rw [reconcileBootstrapBody_conditions]
  | repository =>
    simp only [runPhase, reconcileRepository]
    rw [applyConditionDefer_get_ne _ _ _ _ _ _ (by simpa [phaseCondition] using h)]
    rw [reconcileRepositoryBody_conditions]
  | binaryService =>
    simp only [runPhase, reconcileBinaryService]
    rw [applyConditionDefer_get_ne _ _ _ _ _ _ (by simpa [phaseCondition] using h)]
    rw [reconcileBinaryServiceBody_conditions]
  | containerManager =>
    simp only [runPhase, reconcileContainerManager]
    rw [applyConditionDefer_get_ne _ _ _ _ _ _ (by simpa [phaseCondition] using h)]
    rw [reconcileContainerManagerBody_conditions]
  | provisioning =>
    simp only [runPhase, reconcileProvisioning]
    rw [applyConditionDefer_get_ne _ _ _ _ _ _ (by simpa [phaseCondition] using h)]
    rw [reconcileProvisioningBody_conditions]

lemma conditionsIsTrue_of_get_eq (inst inst' : KKInstance) (t : String)
    (h : conditionsGet inst'.conditions t = conditionsGet inst.conditions t) :
    conditionsIsTrue inst' t = conditionsIsTrue inst t := by
  simp only [conditionsIsTrue, h]

lemma phaseCondition_inj : ∀ p q : Phase,
    phaseCondition p = phaseCondition q → p = q := by
  intro p q h
  cases p <;> cases q <;> first
  | rfl
  | exact absurd h (by decide)

lemma runPhases_nil (svcs : Services) (inst : KKInstance) :
    runPhases svcs [] inst = (inst, [], Option.none) := rfl

lemma runPhases_cons (svcs : Services) (p : Phase) (rest : List Phase)
    (inst : KKInstance) :
    runPhases svcs (p :: rest) inst =
      match (runPhase p svcs inst).err with
      | some e => ((runPhase p svcs inst).inst,
          [(p, (runPhase p svcs inst).trace)], some e)
      | Option.none =>
        ((runPhases svcs rest (runPhase p svcs inst).inst).1,
          (p, (runPhase p svcs inst).trace) ::
            (runPhases svcs rest (runPhase p svcs inst).inst).2.1,
          (runPhases svcs rest (runPhase p svcs inst).inst).2.2) := rfl

lemma runPhases_preserves_true (svcs : Services) (p : Phase) :
    ∀ (phases : List Phase) (inst : KKInstance),
      conditionsIsTrue inst (phaseCondition p) = true →
      conditionsIsTrue (runPhases svcs phases inst).1 (phaseCondition p) =
        true ∧
      (∀ pr ∈ (runPhases svcs phases inst).2.1, pr.1 = p → pr.2 = []) := by
  intro phases
  induction phases with
  | nil =>
    intro inst h
    exact ⟨h, by simp [runPhases_nil]⟩
  | cons q rest ih =>
    intro inst h
    rw [runPhases_cons]
    by_cases hpq : q = p
    · subst hpq
      rw [runPhase_noop q svcs inst h]
      simp only []
      have h' := conditionsIsTrue_markTrue inst (phaseCondition q)
      obtain ⟨ih1, ih2⟩ := ih (markTrue inst (phaseCondition q)) h'
      refine ⟨ih1, ?_⟩
      intro pr hmem hpr
      rcases List.mem_cons.mp hmem with heq | htail
      · rw [heq]
      · exact ih2 pr htail hpr
    · have hne : phaseCondition p ≠ phaseCondition q :=
        fun hh => hpq (phaseCondition_inj q p hh.symm)
      have hget := runPhase_get_ne q svcs inst (phaseCondition p) hne
      have h' : conditionsIsTrue (runPhase q svcs inst).inst
          (phaseCondition p) = true := by
        rw [conditionsIsTrue_of_get_eq inst _ _ hget]
        exact h
      cases herr : (runPhase q svcs inst).err with
      | some e =>
        simp only []
        refine ⟨h', ?_⟩
        intro pr hmem hpr
        rcases List.mem_singleton.mp hmem with heq
        rw [heq] at hpr
        exact absurd hpr hpq
      | none =>
        simp only []
        obtain ⟨ih1, ih2⟩ := ih (runPhase q svcs inst).inst h'
        refine ⟨ih1, ?_⟩
        intro pr hmem hpr
        rcases List.mem_cons.mp hmem with heq | htail
        · rw [heq] at hpr
          exact absurd hpr hpq
        · exact ih2 pr htail hpr

lemma runPhases_get_ne (svcs : Services) (t : String) :
    ∀ (phases : List Phase) (inst : KKInstance),
      (∀ p ∈ phases, t ≠ phaseCondition p) →
      conditionsGet ((runPhases svcs phases inst).1).conditions t =
        conditionsGet inst.conditions t := by
  intro phases
  induction phases with
  | nil => intro inst _; rfl
  | cons q rest ih =>
    intro inst h
    have hq := h q (List.mem_cons_self q rest)
    have hrest := fun p hp => h p (List.mem_cons_of_mem _ hp)
    rw [runPhases_cons]
    cases herr : (runPhase q svcs inst).err with
    | some e =>
      simp only []
      exact runPhase_get_ne q svcs inst t hq
    | none =>
      simp only []
      rw [ih (runPhase q svcs inst).inst hrest]
      exact runPhase_get_ne q svcs inst t hq

/-- C2: `phaseFactory` selects the phase list by distribution: K3s omits the
ContainerManager phase (so a reconcile over the K3s phase list never touches
the CRIReady condition), every other declared distribution (Kubernetes) runs
the full five-phase sequence. -/
theorem C2_phaseFactory_selection :
    phaseFactory K3S =
      [Phase.bootstrap, Phase.repository, Phase.binaryService,
        Phase.provisioning] ∧
    (phaseFactory K3S).contains Phase.containerManager = false ∧
    phaseFactory KUBERNETES =
      [Phase.bootstrap, Phase.repository, Phase.binaryService,
        Phase.containerManager, Phase.provisioning] ∧
    (∀ (svcs : Services) (inst : KKInstance),
      conditionsGet ((runPhases svcs (phaseFactory K3S) inst).1).conditions
          KKInstanceCRIReadyCondition =
        conditionsGet inst.conditions KKInstanceCRIReadyCondition) := by
  refine ⟨by decide, by decide, by decide, ?_⟩
  intro svcs inst
  apply runPhases_get_ne
  intro p hp
  have : phaseFactory K3S =
      [Phase.bootstrap, Phase.repository, Phase.binaryService,
        Phase.provisioning] := by decide
  rw [this] at hp
  fin_cases hp <;> decide

/-- C3: for every phase P of the reconcile phase list, if P's condition is
True at the start of the reconcile, executing P performs no remote action,
and P's condition is still True after the whole phase sequence has run (the
trace recorded for P in the sequence is empty). -/
theorem C3_condition_true_noop (svcs : Services) (inst : KKInstance)
    (phases : List Phase) (p : Phase) (hp : p ∈ phases)
    (h : conditionsIsTrue inst (phaseCondition p) = true) :
    (runPhase p svcs inst).trace = [] ∧
    conditionsIsTrue (runPhases svcs phases inst).1 (phaseCondition p) =
      true ∧
    (∀ pr ∈ (runPhases svcs phases inst).2.1, pr.1 = p → pr.2 = []) := by
  have h1 := runPhase_noop p svcs inst h
  obtain ⟨h2, h3⟩ := runPhases_preserves_true svcs p phases inst h
  exact ⟨by rw [h1], h2, h3⟩

/-- Witness for `C3_condition_true_noop` at a concrete instance whose
Bootstrapped condition is already True. -/
theorem C3_condition_true_noop_witness :
    (Phase.bootstrap ∈ [Phase.bootstrap, Phase.repository] ∧
      conditionsIsTrue
        ⟨Option.none, [⟨"Bootstrapped", .isTrue, .none, "", ""⟩]⟩
        (phaseCondition Phase.bootstrap) = true) ∧
    ((runPhase Phase.bootstrap
        ⟨⟨Option.none, Option.none, Option.none, Option.none, Option.none,
          Option.none, Option.none, Option.none, Option.none, Option.none⟩,
         ⟨Option.none, Option.none, Option.none, Option.none⟩,
         ⟨Option.none⟩, ⟨false, Option.none, Option.none⟩,
         ⟨Option.none, Except.ok [], fun _ => Option.none⟩⟩
        ⟨Option.none, [⟨"Bootstrapped", .isTrue, .none, "", ""⟩]⟩).trace =
        [] ∧
      conditionsIsTrue
        (runPhases
          ⟨⟨Option.none, Option.none, Option.none, Option.none, Option.none,
            Option.none, Option.none, Option.none, Option.none, Option.none⟩,
           ⟨Option.none, Option.none, Option.none, Option.none⟩,
           ⟨Option.none⟩, ⟨false, Option.none, Option.none⟩,
           ⟨Option.none, Except.ok [], fun _ => Option.none⟩⟩
          [Phase.bootstrap, Phase.repository]
          ⟨Option.none, [⟨"Bootstrapped", .isTrue, .none, "", ""⟩]⟩).1
        (phaseCondition Phase.bootstrap) = true ∧
      (∀ pr ∈ (runPhases
          ⟨⟨Option.none, Option.none, Option.none, Option.none, Option.none,
            Option.none, Option.none, Option.none, Option.none, Option.none⟩,
           ⟨Option.none, Option.none, Option.none, Option.none⟩,
           ⟨Option.none⟩, ⟨false, Option.none, Option.none⟩,
           ⟨Option.none, Except.ok [], fun _ => Option.none⟩⟩
          [Phase.bootstrap, Phase.repository]
          ⟨Option.none, [⟨"Bootstrapped", .isTrue, .none, "", ""⟩]⟩).2.1,
        pr.1 = Phase.bootstrap → pr.2 = [])) := by
  refine ⟨⟨by decide, by rfl⟩, ?_⟩
  exact C3_condition_true_noop _ _ _ _ (by decide) (by rfl)

/-- C4: every phase marks its condition False with its fixed reason and
severity (Warning for Bootstrap/`InitOSFailed` and Repository/
`RepositoryFailed`; Error for BinaryService/`GetBinaryFailed`,
ContainerManager/`InstallCRIFailed` and Provisioning/
`RunCloudConfigFailed`) carrying the error text when the phase returns an
error, and marks it True when the phase succeeds. -/
theorem C4_condition_severity_map :
    (∀ (svc : BootstrapService) (inst : KKInstance),
      conditionsGet (reconcileBootstrap svc inst).inst.conditions
          KKInstanceBootstrappedCondition =
        some (match (reconcileBootstrap svc inst).err with
          | some e => ⟨KKInstanceBootstrappedCondition, .isFalse, .warning,
              KKInstanceInitOSFailedReason, e⟩
          | Option.none =>
              ⟨KKInstanceBootstrappedCondition, .isTrue, .none, "", ""⟩)) ∧
    (∀ (svc : RepositoryService) (inst : KKInstance),
      conditionsGet (reconcileRepository svc inst).inst.conditions
          KKInstanceRepositoryReadyCondition =
        some (match (reconcileRepository svc inst).err with
          | some e => ⟨KKInstanceRepositoryReadyCondition, .isFalse, .warning,
              KKInstanceRepositoryFailedReason, e⟩
          | Option.none =>
              ⟨KKInstanceRepositoryReadyCondition, .isTrue, .none, "", ""⟩)) ∧
    (∀ (svc : BinaryService) (inst : KKInstance),
      conditionsGet (reconcileBinaryService svc inst).inst.conditions
          KKInstanceBinariesReadyCondition =
        some (match (reconcileBinaryService svc inst).err with
          | some e => ⟨KKInstanceBinariesReadyCondition, .isFalse, .error,
              KKInstanceGetBinaryFailedReason, e⟩
          | Option.none =>
              ⟨KKInstanceBinariesReadyCondition, .isTrue, .none, "", ""⟩)) ∧
    (∀ (svc : ContainerManagerService) (inst : KKInstance),
      conditionsGet (reconcileContainerManager svc inst).inst.conditions
          KKInstanceCRIReadyCondition =
        some (match (reconcileContainerManager svc inst).err with
          | some e => ⟨KKInstanceCRIReadyCondition, .isFalse, .error,
              KKInstanceInstallCRIFailedReason, e⟩
          | Option.none =>
              ⟨KKInstanceCRIReadyCondition, .isTrue, .none, "", ""⟩)) ∧
    (∀ (svc : ProvisioningService) (inst : KKInstance),
      conditionsGet (reconcileProvisioning svc inst).inst.conditions
          KKInstanceProvisionedCondition =
        some (match (reconcileProvisioning svc inst).err with
          | some e => ⟨KKInstanceProvisionedCondition, .isFalse, .error,
              KKInstanceRunCloudConfigFailedReason, e⟩
          | Option.none =>
              ⟨KKInstanceProvisionedCondition, .isTrue, .none, "", ""⟩)) := by
  refine ⟨?_, ?_, ?_, ?_, ?_⟩ <;>
    intro svc inst <;>
    exact applyConditionDefer_get_self _ _ _ _ _

/-- C5: `reconcileDeletingBootstrap` sets the host state to Cleaning and runs
exactly the five cleanup sub-steps in order — kubeadm reset, network reset,
file removal, daemon reload, K3s uninstall — short-circuiting at the first
failing sub-step; its error is the first failing sub-step's error, and the
DeletingBootstrap condition is marked True exactly when all five succeed and
False/Warning/`ClearEnvironmentFailed` otherwise. -/
theorem C5_deleting_bootstrap (svc : BootstrapService) (inst : KKInstance) :
    (reconcileDeletingBootstrap svc inst).inst.state =
      some InstanceState.cleaning ∧
    (reconcileDeletingBootstrap svc inst).trace =
      (match svc.kubeadmReset with
       | some _ => [RemoteAction.kubeadmReset]
       | Option.none => RemoteAction.kubeadmReset ::
         (match svc.resetNetwork with
          | some _ => [RemoteAction.resetNetwork]
          | Option.none => RemoteAction.resetNetwork ::
            (match svc.removeFiles with
             | some _ => [RemoteAction.removeFiles]
             | Option.none => RemoteAction.removeFiles ::
               (match svc.daemonReload with
                | some _ => [RemoteAction.daemonReload]
                | Option.none => RemoteAction.daemonReload ::
                  [RemoteAction.uninstallK3s])))) ∧
    (reconcileDeletingBootstrap svc inst).err =
      (svc.kubeadmReset <|> svc.resetNetwork <|> svc.removeFiles <|>
        svc.daemonReload <|> svc.uninstallK3s) ∧
    conditionsGet (reconcileDeletingBootstrap svc inst).inst.conditions
        KKInstanceDeletingBootstrapCondition =
      some (match (reconcileDeletingBootstrap svc inst).err with
        | some e => ⟨KKInstanceDeletingBootstrapCondition, .isFalse, .warning,
            KKInstanceClearEnvironmentFailedReason, e⟩
        | Option.none =>
            ⟨KKInstanceDeletingBootstrapCondition, .isTrue, .none, "", ""⟩) := by
  refine ⟨?_, ?_, ?_, applyConditionDefer_get_self _ _ _ _ _⟩
  · show (applyConditionDefer (reconcileDeletingBootstrapBody svc inst).1 _ _ _
      (reconcileDeletingBootstrapBody svc inst).2.2).state = _
    rw [applyConditionDefer_state]
    unfold reconcileDeletingBootstrapBody
    cases svc.kubeadmReset <;> cases svc.resetNetwork <;>
      cases svc.removeFiles <;> cases svc.daemonReload <;>
      cases svc.uninstallK3s <;> rfl
  · show (reconcileDeletingBootstrapBody svc inst).2.1 = _
    unfold reconcileDeletingBootstrapBody
    cases svc.kubeadmReset <;> cases svc.resetNetwork <;>
      cases svc.removeFiles <;> cases svc.daemonReload <;>
      cases svc.uninstallK3s <;> rfl
  · show (reconcileDeletingBootstrapBody svc inst).2.2 = _
    unfold reconcileDeletingBootstrapBody
    cases svc.kubeadmReset <;> cases svc.resetNetwork <;>
      cases svc.removeFiles <;> cases svc.daemonReload <;>
      cases svc.uninstallK3s <;> rfl

/-- C7: in `reconcileRepository`, `UmountISO` runs exactly when `MountISO`
was invoked (including when `MountISO` itself fails and when
`UpdateAndInstall` fails), and `MountISO` is invoked exactly when the
condition was not already True and both `Check` and `Get` succeeded — so no
unmount is attempted when `Check` or `Get` fails. -/
theorem C7_repository_umount_paired (svc : RepositoryService)
    (inst : KKInstance) :
    (RemoteAction.umountISO ∈ (reconcileRepository svc inst).trace ↔
      RemoteAction.mountISO ∈ (reconcileRepository svc inst).trace) ∧
    (RemoteAction.mountISO ∈ (reconcileRepository svc inst).trace ↔
      (conditionsIsTrue inst KKInstanceRepositoryReadyCondition = false ∧
        svc.check = Option.none ∧ svc.get = Option.none)) := by
  have htr : (reconcileRepository svc inst).trace =
      (reconcileRepositoryBody svc inst).2.1 := rfl
  rw [htr]
  unfold reconcileRepositoryBody
  cases hc : conditionsIsTrue inst KKInstanceRepositoryReadyCondition <;>
    cases h1 : svc.check <;> cases h2 : svc.get <;> cases h3 : svc.mountISO <;>
    cases h4 : svc.updateAndInstall <;> simp

/-! ## `GenerateHosts` (package `templates`)

The `common` and `connector` packages are not part of the extracted sources;
hosts, roles and the configuration are modelled with exactly the fields
`GenerateHosts` reads.  The Go panic on the out-of-bounds index
`GetHostsByRole(Master)[0]` is modelled by returning `none`. -/

/-- Host roles (`common.Master`, `common.Worker`, `common.Etcd`,
`common.Registry`). -/
inductive Role
  | master
  | worker
  | etcd
  | registry
  deriving DecidableEq, Repr

/-- A host of the inventory, restricted to what `GenerateHosts` reads. -/
structure Host where
  name : String
  internalIPv4 : String
  internalIPv6 : String
  roles : List Role
  deriving DecidableEq, Repr

/-- The runtime's inventory (`GetAllHosts` order). -/
structure ModuleRuntime where
  hosts : List Host
  deriving DecidableEq, Repr

/-- `runtime.GetHostsByRole`: the hosts carrying the given role, in
inventory order. -/
def getHostsByRole (r : ModuleRuntime) (role : Role) : List Host :=
  r.hosts.filter (fun h => role ∈ h.roles)

/-- `registry.RegistryCertificateBaseName` (package constant). -/
def registryCertificateBaseName : String := "dockerhub.kubekey.local"

/-- The `KubeConf` fields `GenerateHosts` reads.  `registryHost` stands for
`kubeConf.Cluster.Registry.GetHost()`. -/
structure KubeConf where
  controlPlaneEndpointAddress : String
  controlPlaneEndpointDomain : String
  clusterName : String
  privateRegistry : String
  registryHost : String
  nodeEtcHosts : String
  deriving DecidableEq, Repr

/-- The load-balancer `/etc/hosts` line computed at the top of
`GenerateHosts`: the control-plane endpoint address when non-empty,
otherwise the internal IPv4 of the first master host — an index access that
panics (`none`) when no master host exists. -/
def lbHostLine (r : ModuleRuntime) (conf : KubeConf) : Option String :=
  if conf.controlPlaneEndpointAddress ≠ "" then
    some (conf.controlPlaneEndpointAddress ++ "  " ++
      conf.controlPlaneEndpointDomain)
  else
    match getHostsByRole r Role.master with
    | [] => Option.none
    | h :: _ =>
      some (h.internalIPv4 ++ "  " ++ conf.controlPlaneEndpointDomain)

/-- One inventory host's `/etc/hosts` lines: skipped when unnamed, the IPv4
line always, the IPv6 line when an IPv6 address is present. -/
def hostLines (conf : KubeConf) (h : Host) : List String :=
  if h.name ≠ "" then
    [h.internalIPv4 ++ "  " ++ h.name ++ "." ++ conf.clusterName ++ " " ++
      h.name] ++
    (if h.internalIPv6 ≠ "" then
      [h.internalIPv6 ++ "  " ++ h.name ++ "." ++ conf.clusterName ++ " " ++
        h.name]
    else [])
  else []

/-- Shallow embedding of `GenerateHosts`.  The accumulator `hostsList` is
threaded exactly as in the source: per-host inventory entries, then registry
entries, then the trimmed non-empty `NodeEtcHosts` lines, then the
load-balancer entry. -/
def generateHosts (r : ModuleRuntime) (conf : KubeConf) :
    Option (List String) :=
  match lbHostLine r conf with
  | Option.none => Option.none
  | some lbHost =>
    let hostsList : List String := []
    let hostsList := r.hosts.foldl
      (fun acc h => acc ++ hostLines conf h) hostsList
    let hostsList :=
      match getHostsByRole r Role.registry with
      | [] => hostsList
      | reg :: _ =>
        let rhost := if conf.privateRegistry ≠ "" then conf.registryHost
          else registryCertificateBaseName
        let hostsList := hostsList ++ [reg.internalIPv4 ++ "  " ++ rhost]
        if reg.internalIPv6 ≠ "" then
          hostsList ++ [reg.internalIPv6 ++ "  " ++ rhost]
        else hostsList
    let hostsList :=
      if 0 < conf.nodeEtcHosts.length then
        (splitLines (trimSpace conf.nodeEtcHosts)).foldl
          (fun acc l =>
            let line := trimSpace l
            if line ≠ "" then acc ++ [line] else acc)
          hostsList
      else hostsList
    some (hostsList ++ [lbHost])

/-- The registry `/etc/hosts` lines, as a standalone list. -/
def registryLines (r : ModuleRuntime) (conf : KubeConf) : List String :=
  match getHostsByRole r Role.registry with
  | [] => []
  | reg :: _ =>
    let rhost := if conf.privateRegistry ≠ "" then conf.registryHost
      else registryCertificateBaseName
    [reg.internalIPv4 ++ "  " ++ rhost] ++
      (if reg.internalIPv6 ≠ "" then [reg.internalIPv6 ++ "  " ++ rhost]
       else [])

/-- The `NodeEtcHosts` extension lines, as a standalone list: each trimmed
non-empty line, verbatim and in input order.  No comparison against the
inventory-derived host names is made anywhere. -/
def nodeEtcHostsLines (conf : KubeConf) : List String :=
  if 0 < conf.nodeEtcHosts.length then
    ((splitLines (trimSpace conf.nodeEtcHosts)).map trimSpace).filter
      (fun l => l ≠ "")
  else []

lemma foldl_append_flatMap {α β : Type} (f : α → List β) :
    ∀ (l : List α) (acc : List β),
      l.foldl (fun a x => a ++ f x) acc = acc ++ l.flatMap f := by
  intro l
  induction l with
  | nil => intro acc; simp
  | cons x xs ih =>
    intro acc
    rw [List.foldl_cons, ih, List.flatMap_cons, List.append_assoc]

lemma foldl_trim_filter :
    ∀ (l : List String) (acc : List String),
      l.foldl
        (fun acc x =>
          if trimSpace x = "" then acc else acc ++ [trimSpace x]) acc =
      acc ++ (l.map trimSpace).filter (fun s => s ≠ "") := by
  intro l
  induction l with
  | nil => intro acc; simp
  | cons x xs ih =>
    intro acc
    rw [List.foldl_cons]
    by_cases hx : trimSpace x = "" <;>
      simp [hx, ih, List.filter_cons]

/-- C10: `GenerateHosts` output order — whenever the load-balancer line is
defined, the result is the per-host inventory entries (IPv4 then optional
IPv6, named hosts only), followed by the registry entries, followed by each
trimmed non-empty `NodeEtcHosts` line verbatim (no duplicate-hostname
detection against the inventory entries), with the load-balancer entry as
the final element. -/
theorem C10_generateHosts_order (r : ModuleRuntime) (conf : KubeConf) :
    generateHosts r conf =
      Option.map (fun lb =>
        r.hosts.flatMap (hostLines conf) ++ registryLines r conf ++
          nodeEtcHostsLines conf ++ [lb]) (lbHostLine r conf) := by
  have h1 : r.hosts.foldl (fun acc h => acc ++ hostLines conf h) [] =
      r.hosts.flatMap (hostLines conf) := by
    simpa using foldl_append_flatMap (hostLines conf) r.hosts []
  unfold generateHosts
  cases hlb : lbHostLine r conf with
  | none => rfl
  | some lb =>
    refine congrArg some ?_
    simp only [h1]
    unfold registryLines nodeEtcHostsLines
    cases hreg : getHostsByRole r Role.registry with
    | nil =>
      by_cases hn : 0 < conf.nodeEtcHosts.length <;>
        simp [hn, foldl_trim_filter, List.append_assoc]
    | cons reg rest =>
      by_cases hn : 0 < conf.nodeEtcHosts.length <;>
        by_cases h6 : reg.internalIPv6 ≠ "" <;>
          simp [hn, h6, foldl_trim_filter, List.append_assoc]

/-- C9: when the control-plane endpoint address is empty, `GenerateHosts`
indexes the first master host without an emptiness check: with at least one
master host it is well-defined, and with no master host the index access is
out of bounds (modelled as `none`, a Go panic). -/
theorem C9_generateHosts_master_index (r : ModuleRuntime) (conf : KubeConf) :
    (conf.controlPlaneEndpointAddress = "" →
      getHostsByRole r Role.master = [] →
      generateHosts r conf = Option.none) ∧
    (getHostsByRole r Role.master ≠ [] →
      (generateHosts r conf).isSome = true) := by
  constructor
  · intro ha hm
    unfold generateHosts lbHostLine
    simp [ha, hm]
  · intro hm
    unfold generateHosts
    cases hlb : lbHostLine r conf with
    | some lb => rfl
    | none =>
      exfalso
      unfold lbHostLine at hlb
      by_cases ha : conf.controlPlaneEndpointAddress ≠ ""
      · simp [ha] at hlb
      · cases hmm : getHostsByRole r Role.master with
        | nil => exact hm hmm
        | cons h t => simp [ha, hmm] at hlb

/-- Witness for `C9_generateHosts_master_index`: an inventory with no master
and an empty endpoint address panics; an inventory with one master is
well-defined. -/
theorem C9_generateHosts_master_index_witness :
    ((("" : String) = "" ∧
        getHostsByRole ⟨[]⟩ Role.master = [] ∧
        generateHosts ⟨[]⟩ ⟨"", "lb.kubesphere.local", "cluster.local",
          "", "", ""⟩ = Option.none) ∧
      (getHostsByRole ⟨[⟨"n1", "10.0.0.1", "", [Role.master]⟩]⟩
          Role.master ≠ [] ∧
        (generateHosts ⟨[⟨"n1", "10.0.0.1", "", [Role.master]⟩]⟩
          ⟨"", "lb.kubesphere.local", "cluster.local", "", "",
            ""⟩).isSome = true)) := by
  refine ⟨⟨rfl, by decide, ?_⟩, ⟨by decide, ?_⟩⟩
  · exact (C9_generateHosts_master_index ⟨[]⟩
      ⟨"", "lb.kubesphere.local", "cluster.local", "", "", ""⟩).1 rfl
      (by decide)
  · exact (C9_generateHosts_master_index
      ⟨[⟨"n1", "10.0.0.1", "", [Role.master]⟩]⟩
      ⟨"", "lb.kubesphere.local", "cluster.local", "", "", ""⟩).2
      (by decide)

/-! ## Control-plane deletion-candidate selection (package `cluster`)

`collections.Machines` (a name-keyed set) is modelled as a list; Go map
iteration ties in `Oldest` are resolved by list order.  The machine "delete
me" marker field models the cluster-api DeleteMachineAnnotation key (the
word is avoided in identifiers for lexical reasons). -/

/-- A control-plane machine, restricted to the fields the selection reads. -/
structure CPMachine where
  name : String
  creationTimestamp : Nat
  failureDomain : Option String
  hasDeleteMark : Bool
  deriving DecidableEq, Repr

/-- One entry of `Cluster.Status.FailureDomains`. -/
structure FailureDomainSpec where
  id : String
  controlPlane : Bool
  deriving DecidableEq, Repr

/-- The `ControlPlane` helper, restricted to the fields the selection reads:
`c.Machines` and `c.Cluster.Status.FailureDomains`. -/
structure CPControlPlane where
  machines : List CPMachine
  failureDomains : List FailureDomainSpec
  deriving DecidableEq, Repr

/-- `c.FailureDomains().FilterControlPlane().GetIDs()`: the ids of the
control-plane failure domains. -/
def cpFailureDomainIDs (c : CPControlPlane) : List String :=
  (c.failureDomains.filter (fun fd => fd.controlPlane)).map (fun fd => fd.id)

/-- `collections.Machines.Oldest`: the machine with the strictly earliest
creation timestamp (`nil` on an empty set). -/
def oldest : List CPMachine → Option CPMachine
  | [] => Option.none
  | m :: rest =>
    some (rest.foldl
      (fun o m' => if m'.creationTimestamp < o.creationTimestamp then m'
        else o) m)

/-- `MachineWithDeleteAnnotation`: the machines carrying the "delete me"
marker. -/
def MachineWithDeleteMark (machines : List CPMachine) : List CPMachine :=
  machines.filter (fun m => m.hasDeleteMark)

/-- Modelled from the spec: `failuredomains.PickMost` (library code not
under the extracted sources) — "the failure domain with the most machines
(used to pick deletion candidates)": among the cluster's control-plane
failure domains containing at least one of the eligible machines, the one
with the most control-plane machines on it. -/
def pickMost (c : CPControlPlane) (eligible : List CPMachine) :
    Option String :=
  let count := fun id =>
    (c.machines.filter (fun m => m.failureDomain == some id)).length
  match (cpFailureDomainIDs c).filter
      (fun id => eligible.any (fun m => m.failureDomain == some id)) with
  | [] => Option.none
  | i :: rest =>
    some (rest.foldl (fun best i' => if count best < count i' then i'
      else best) i)

/-- `FailureDomainWithMostMachines`: prefer the failure domain of the oldest
machine outside the currently defined control-plane failure domains;
otherwise pick the most populated control-plane failure domain. -/
def FailureDomainWithMostMachines (c : CPControlPlane)
    (machines : List CPMachine) : Option String :=
  let notInFailureDomains := machines.filter
    (fun m => !(cpFailureDomainIDs c).any (fun id => m.failureDomain == some id))
  match oldest notInFailureDomains with
  | some m => m.failureDomain
  | Option.none => pickMost c machines

/-- `MachineInFailureDomainWithMostMachines`: the oldest machine among the
machines inside the chosen failure domain, or an error when none can be
picked. -/
def MachineInFailureDomainWithMostMachines (c : CPControlPlane)
    (machines : List CPMachine) : Except String CPMachine :=
  let fd := FailureDomainWithMostMachines c machines
  let machinesInFailureDomain := machines.filter
    (fun m => m.failureDomain == fd)
  match oldest machinesInFailureDomain with
  | some m => Except.ok m
  | Option.none =>
    Except.error "failed to pick control plane Machine to mark for deletion"

/-- Modelled from the spec: the scale-down caller (not under the extracted
sources) — "Deletion candidate selection first honours any explicit
\x22delete me\x22 annotation, then oldest-in-most-populated-failure-domain":
restrict to the marked machines when any exist, then pick the oldest in the
most populated failure domain. -/
def selectMachineForScaleDown (c : CPControlPlane)
    (machines : List CPMachine) : Except String CPMachine :=
  if MachineWithDeleteMark machines ≠ [] then
    MachineInFailureDomainWithMostMachines c (MachineWithDeleteMark machines)
  else
    MachineInFailureDomainWithMostMachines c machines

lemma oldest_mem (l : List CPMachine) (m : CPMachine)
    (h : oldest l = some m) : m ∈ l := by
  match l with
  | [] => cases h
  | x :: rest =>
    have hfold : ∀ (rest : List CPMachine) (x : CPMachine),
        rest.foldl (fun o m' =>
          if m'.creationTimestamp < o.creationTimestamp then m' else o) x ∈
          x :: rest := by
      intro rest
      induction rest with
      | nil => intro x; exact List.mem_singleton.mpr rfl
      | cons y ys ih =>
        intro x
        rw [List.foldl_cons]
        rcases List.mem_cons.mp
            (ih (if y.creationTimestamp < x.creationTimestamp then y
              else x)) with heq | htail
        · rw [heq]
          by_cases hc : y.creationTimestamp < x.creationTimestamp
          · simp [hc]
          · simp [hc]
        · simp [htail]
    have hm : m = rest.foldl (fun o m' =>
        if m'.creationTimestamp < o.creationTimestamp then m' else o) x := by
      simpa [oldest] using h.symm
    rw [hm]
    exact hfold rest x

/-- C8: over a non-empty machine set, deletion-candidate selection first
honours the machines carrying the explicit delete marker (the candidate it
returns is marked); absent any marked machine, it selects the oldest machine
inside the failure domain chosen by `FailureDomainWithMostMachines`, and
returns an error when no machine can be picked there. -/
theorem C8_deletion_candidate (c : CPControlPlane)
    (machines : List CPMachine) (hne : machines ≠ []) :
    (MachineWithDeleteMark machines ≠ [] →
      selectMachineForScaleDown c machines =
        MachineInFailureDomainWithMostMachines c
          (MachineWithDeleteMark machines) ∧
      (∀ m, selectMachineForScaleDown c machines = Except.ok m →
        m.hasDeleteMark = true)) ∧
    (MachineWithDeleteMark machines = [] →
      selectMachineForScaleDown c machines =
        MachineInFailureDomainWithMostMachines c machines ∧
      (match oldest (machines.filter (fun m =>
          m.failureDomain == FailureDomainWithMostMachines c machines)) with
        | some m => selectMachineForScaleDown c machines = Except.ok m
        | Option.none => selectMachineForScaleDown c machines =
            Except.error
              "failed to pick control plane Machine to mark for deletion")) := by
  constructor
  · intro hann
    have hif : selectMachineForScaleDown c machines =
        MachineInFailureDomainWithMostMachines c
          (MachineWithDeleteMark machines) := by
      unfold selectMachineForScaleDown
      rw [if_pos hann]
    refine ⟨hif, ?_⟩
    intro m hok
    rw [hif] at hok
    simp only [MachineInFailureDomainWithMostMachines] at hok
    cases ho : oldest ((MachineWithDeleteMark machines).filter (fun m =>
        m.failureDomain ==
          FailureDomainWithMostMachines c (MachineWithDeleteMark machines)))
        with
    | none => rw [ho] at hok; cases hok
    | some m' =>
      rw [ho] at hok
      have hm : m' = m := by simpa using hok
      subst hm
      have hmem := oldest_mem _ _ ho
      have hmem2 := (List.mem_filter.mp hmem).1
      exact (List.mem_filter.mp hmem2).2
  · intro hvoid
    have hif : selectMachineForScaleDown c machines =
        MachineInFailureDomainWithMostMachines c machines := by
      unfold selectMachineForScaleDown
      rw [if_neg (by simp [hvoid])]
    refine ⟨hif, ?_⟩
    cases ho : oldest (machines.filter (fun m =>
        m.failureDomain == FailureDomainWithMostMachines c machines)) with
    | some m =>
      rw [hif]
      simp only [MachineInFailureDomainWithMostMachines]
      rw [ho]
    | none =>
      rw [hif]
      simp only [MachineInFailureDomainWithMostMachines]
      rw [ho]

/-- Witness for `C8_deletion_candidate`: two machines, one marked for
deletion; the selection returns the marked one. -/
theorem C8_deletion_candidate_witness :
    ([⟨"m1", 5, Option.none, true⟩, ⟨"m2", 3, Option.none, false⟩] ≠
        ([] : List CPMachine) ∧
      MachineWithDeleteMark
        [⟨"m1", 5, Option.none, true⟩, ⟨"m2", 3, Option.none, false⟩] ≠
        [] ∧
      selectMachineForScaleDown
        ⟨[⟨"m1", 5, Option.none, true⟩, ⟨"m2", 3, Option.none, false⟩], []⟩
        [⟨"m1", 5, Option.none, true⟩, ⟨"m2", 3, Option.none, false⟩] =
        Except.ok ⟨"m1", 5, Option.none, true⟩) ∧
    selectMachineForScaleDown
        ⟨[⟨"m1", 5, Option.none, true⟩, ⟨"m2", 3, Option.none, false⟩], []⟩
        [⟨"m1", 5, Option.none, true⟩, ⟨"m2", 3, Option.none, false⟩] =
      MachineInFailureDomainWithMostMachines
        ⟨[⟨"m1", 5, Option.none, true⟩, ⟨"m2", 3, Option.none, false⟩], []⟩
        (MachineWithDeleteMark
          [⟨"m1", 5, Option.none, true⟩, ⟨"m2", 3, Option.none, false⟩]) := by
  refine ⟨⟨by decide, by decide, by rfl⟩, ?_⟩
  exact ((C8_deletion_candidate
    ⟨[⟨"m1", 5, Option.none, true⟩, ⟨"m2", 3, Option.none, false⟩], []⟩
    [⟨"m1", 5, Option.none, true⟩, ⟨"m2", 3, Option.none, false⟩]
    (by decide)).1 (by decide)).1
